import Mathlib

/-!
Shallow embedding of the `can-you-peer-me` Tauri node
(`src-tauri/src/lib.rs`, `src-tauri/src/sync.rs`, `src-tauri/src/messages.rs`).

Modelled pieces:
* the JSON codec used on the gossip wire: `serde_json::to_vec(&(timestamp, index))`
  in `broadcast` and `serde_json::from_slice` in `forward_to_app_layer`;
* the event multiplexer loop of `forward_to_app_layer` as a step function on
  the shared `AppContext`;
* the Tauri commands `init` and `broadcast`;
* the `DummyProtocol` sync roles `initiate` and `accept` as trace functions
  over the list of messages arriving on the incoming stream.

Machine integers are `Nat` with explicit range conditions (`< 2 ^ 64`,
`< 2 ^ 16`); byte strings are `List Nat`; fallible operations return `Option`
or a fatal-outcome marker mirroring the Rust `expect`/`panic` sites.
-/

/-- True exactly for the byte values of ASCII decimal digits 0-9. -/
def isDigitByte (b : Nat) : Bool := 48 ≤ b && b ≤ 57

/-- Splits a byte list into its longest digit-byte prefix and the remainder,
as a JSON number lexer does when scanning an unsigned integer. -/
def takeDigits : List Nat → List Nat × List Nat
  | [] => ([], [])
  | b :: bs =>
    if isDigitByte b then
      let p := takeDigits bs
      (b :: p.1, p.2)
    else
      ([], b :: bs)

/-- Numeric value of a most-significant-first list of ASCII digit bytes. -/
def decodeDigits (ds : List Nat) : Nat :=
  ds.foldl (fun a d => a * 10 + (d - 48)) 0

/-- Fuel-indexed decimal printer: ASCII digit bytes of `n`, most significant
first, empty for `n = 0`. The fuel bounds the number of divisions by 10. -/
def encNatAux : Nat → Nat → List Nat
  | 0, _ => []
  | fuel + 1, n =>
    if n = 0 then [] else encNatAux fuel (n / 10) ++ [48 + n % 10]

/-- ASCII decimal representation of `n`, as `serde_json` prints an unsigned
integer. -/
def encNat (n : Nat) : List Nat :=
  if n = 0 then [48] else encNatAux n n

/-- Wire bytes of a `(timestamp, index)` message: the JSON array
`[<timestamp>,<index>]`, exactly what `serde_json::to_vec(&message)` produces
in the `broadcast` command (91 = `[`, 44 = `,`, 93 = `]`). -/
def encodeMessage (timestamp index : Nat) : List Nat :=
  91 :: (encNat timestamp ++ 44 :: (encNat index ++ [93]))

/-- Decoder for a gossip payload into a `(u64, u16)` pair, mirroring
`serde_json::from_slice::<(u64, u16)>` in `forward_to_app_layer`: expects a
two-element JSON array of unsigned integers within the `u64`/`u16` ranges;
any malformed or truncated input yields `none` (the `DecodeError` case). -/
def decodeBytes (bs : List Nat) : Option (Nat × Nat) :=
  match bs with
  | 91 :: rest =>
    let p1 := takeDigits rest
    if p1.1 = [] then none
    else
      match p1.2 with
      | 44 :: r2 =>
        let p2 := takeDigits r2
        if p2.1 = [] then none
        else
          match p2.2 with
          | [93] =>
            if decodeDigits p1.1 < 2 ^ 64 ∧ decodeDigits p2.1 < 2 ^ 16 then
              some (decodeDigits p1.1, decodeDigits p2.1)
            else none
          | _ => none
      | _ => none
  | _ => none

lemma takeDigits_append (ds rest : List Nat) (b : Nat)
    (hds : ∀ d ∈ ds, isDigitByte d = true) (hb : isDigitByte b = false) :
    takeDigits (ds ++ b :: rest) = (ds, b :: rest) := by
  induction ds with
  | nil => simp [takeDigits, hb]
  | cons d ds ih =>
    have hd : isDigitByte d = true := hds d (List.mem_cons_self d ds)
    have ih' := ih (fun x hx => hds x (List.mem_cons_of_mem d hx))
    simp [takeDigits, hd, ih']

lemma encNatAux_digits (fuel n : Nat) :
    ∀ d ∈ encNatAux fuel n, isDigitByte d = true := by
  induction fuel generalizing n with
  | zero => intro d hd; simp [encNatAux] at hd
  | succ fuel ih =>
    intro d hd
    by_cases hn : n = 0
    · simp [encNatAux, hn] at hd
    · simp only [encNatAux, hn, if_false, List.mem_append, List.mem_singleton] at hd
      rcases hd with hd | hd
      · exact ih (n / 10) d hd
      · subst hd
        have h10 : n % 10 < 10 := Nat.mod_lt _ (by decide)
        simp only [isDigitByte, Bool.and_eq_true, decide_eq_true_eq]
        omega

lemma encNat_digits (n : Nat) : ∀ d ∈ encNat n, isDigitByte d = true := by
  by_cases hn : n = 0
  · intro d hd; simp [encNat, hn] at hd; simp [hd, isDigitByte]
  · intro d hd
    simp only [encNat, hn, if_false] at hd
    exact encNatAux_digits n n d hd

lemma encNat_ne_nil (n : Nat) : encNat n ≠ [] := by
  by_cases hn : n = 0
  · simp [encNat, hn]
  · have hfuel : ∃ m, n = m + 1 := ⟨n - 1, by omega⟩
    obtain ⟨m, hm⟩ := hfuel
    simp only [encNat, hn, if_false, hm]
    simp only [encNatAux]
    have : ¬(m + 1 = 0) := by omega
    simp [hm ▸ hn]

lemma foldl_encNatAux (fuel : Nat) :
    ∀ n a, n ≤ fuel →
      (encNatAux fuel n).foldl (fun a d => a * 10 + (d - 48)) a
        = a * 10 ^ (encNatAux fuel n).length + n := by
  induction fuel with
  | zero =>
    intro n a hn
    have : n = 0 := Nat.le_zero.mp hn
    simp [encNatAux, this]
  | succ fuel ih =>
    intro n a hn
    by_cases h0 : n = 0
    · simp [encNatAux, h0]
    · have hdiv_lt : n / 10 < n := Nat.div_lt_self (Nat.pos_of_ne_zero h0) (by decide)
      have hdiv : n / 10 ≤ fuel := by omega
      simp only [encNatAux, h0, if_false]
      rw [List.foldl_append]
      simp only [List.foldl_cons, List.foldl_nil]
      rw [ih (n / 10) a hdiv]
      have hsub : 48 + n % 10 - 48 = n % 10 := by omega
      rw [hsub]
      rw [List.length_append]
      simp only [List.length_singleton]
      rw [pow_succ]
      have hmod := Nat.div_add_mod n 10
      ring_nf
      omega

lemma decodeDigits_encNat (n : Nat) : decodeDigits (encNat n) = n := by
  by_cases hn : n = 0
  · simp [encNat, hn, decodeDigits]
  · simp only [encNat, hn, if_false, decodeDigits]
    rw [foldl_encNatAux n n 0 (Nat.le_refl n)]
    simp

lemma decodeBytes_encodeMessage (t i : Nat) (ht : t < 2 ^ 64) (hi : i < 2 ^ 16) :
    decodeBytes (encodeMessage t i) = some (t, i) := by
  have h1 : takeDigits (encNat t ++ 44 :: (encNat i ++ [93]))
      = (encNat t, 44 :: (encNat i ++ [93])) :=
    takeDigits_append _ _ _ (encNat_digits t) (by decide)
  have h2 : takeDigits (encNat i ++ 93 :: []) = (encNat i, 93 :: []) :=
    takeDigits_append _ _ _ (encNat_digits i) (by decide)
  simp only [encodeMessage, decodeBytes, h1]
  simp only [encNat_ne_nil t, if_false]
  simp only [List.cons_append] at h2 ⊢
  simp only [h2]
  simp only [encNat_ne_nil i, if_false]
  simp only [decodeDigits_encNat]
  rw [if_pos ⟨ht, hi⟩]

/-- Claim C1: the codec is a lossless round trip — decoding the bytes produced
by encoding any valid `(timestamp : u64, sample_index : u16)` pair yields the
identical pair. -/
theorem codec_round_trip (t i : Nat) (ht : t < 2 ^ 64) (hi : i < 2 ^ 16) :
    decodeBytes (encodeMessage t i) = some (t, i) :=
  decodeBytes_encodeMessage t i ht hi

/-- Witness for C1 at the spec scenario values `(timestamp = 1000,
sample_index = 7)`. -/
theorem codec_round_trip_witness :
    decodeBytes (encodeMessage 1000 7) = some (1000, 7) :=
  codec_round_trip 1000 7 (by decide) (by decide)

/-- The fixed 32-byte topic identifier type (`struct AppTopic([u8; 32])`),
with the id modelled as a byte list. -/
structure AppTopic where
  id : List Nat
deriving DecidableEq

/-- The well-known application topic `AppTopic([1; 32])`. -/
def app_topic : AppTopic := ⟨List.replicate 32 1⟩

/-- The fixed network id `[0; 32]`. -/
def network_id : List Nat := List.replicate 32 0

/-- System status notifications relayed from the overlay
(`p2panda_net::SystemEvent<AppTopic>`); peers and public keys are modelled as
naturals. -/
inductive SystemEvent where
  | gossipJoined (topic_id : List Nat) (peers : List Nat)
  | gossipLeft (topic_id : List Nat)
  | gossipNeighborUp (topic_id : List Nat) (peer : Nat)
  | gossipNeighborDown (topic_id : List Nat) (peer : Nat)
  | peerDiscovered (peer : Nat)
  | syncStarted (topic : List Nat) (peer : Nat)
  | syncDone (topic : List Nat) (peer : Nat)
  | syncFailed (topic : List Nat) (peer : Nat)
deriving DecidableEq

/-- Events sent to the registered consumer, mirroring `enum ChannelEvent` in
`lib.rs`: `SamplePlayed { timestamp, index }` or a wrapped system event. -/
inductive ChannelEvent where
  | samplePlayed (timestamp : Nat) (index : Nat)
  | systemEvent (e : SystemEvent)
deriving DecidableEq

/-- A Tauri IPC delivery channel; `closed` marks a channel whose receiver has
gone away, on which `send` fails (and the code's `expect` aborts). -/
structure Channel where
  closed : Bool
deriving DecidableEq

/-- The shared `AppContext`: the optional consumer channel, plus the observable
state of the two outbound sinks — `appQueue` records the `(timestamp, index)`
pairs pushed into `app_tx`, `wire` the byte payloads pushed into `topic_tx`. -/
structure AppContext where
  channel : Option Channel
  appQueue : List (Nat × Nat)
  wire : List (List Nat)
deriving DecidableEq

/-- Errors of the command surface (`enum InitError`). -/
inductive InitError where
  | oneshotChannelError
  | setStreamChannelError
deriving DecidableEq

/-- The `init` Tauri command: stores the supplied channel as the active
consumer (`state.channel = Some(channel)`) and returns `Ok(())`. -/
def init (ctx : AppContext) (c : Channel) : AppContext × Except InitError Unit :=
  ({ ctx with channel := some c }, Except.ok ())

/-- The `broadcast` Tauri command: sends `(timestamp, index)` on `app_tx`
(local echo) and the JSON-encoded payload on `topic_tx` (gossip broadcast),
then returns `Ok(())`. -/
def broadcast (ctx : AppContext) (timestamp index : Nat) :
    AppContext × Except InitError Unit :=
  ({ ctx with
      appQueue := ctx.appQueue ++ [(timestamp, index)]
      wire := ctx.wire ++ [encodeMessage timestamp index] },
    Except.ok ())

/-- One event arriving at the multiplexer loop of `forward_to_app_layer`:
a system event from `system_events_rx`, a gossip message or sync message from
`topic_rx`, or a locally published pair from `app_rx`. -/
inductive SourceEvent where
  | system (e : SystemEvent)
  | gossip (bytes : List Nat)
  | syncMsg
  | localApp (timestamp index : Nat)
deriving DecidableEq

/-- Outcome of one multiplexer iteration: events delivered to the consumer,
or a fatal abort naming the Rust `expect`/`todo` message that fired. -/
inductive StepOutcome where
  | ok (delivered : List ChannelEvent)
  | fatal (msg : String)
deriving DecidableEq

/-- One iteration of the `tokio::select!` loop in `forward_to_app_layer`,
translated branch by branch: a gossip payload is decoded before the consumer
channel is examined (`expect("decode message bytes")` aborts on failure, and a
`FromNetwork::SyncMessage` hits `todo!()`); each branch forwards to the
consumer only when a channel is registered, aborting when that channel is
closed (`expect("send on app channel")`). The context itself is never written
by the loop. -/
def muxStep (ctx : AppContext) (ev : SourceEvent) : AppContext × StepOutcome :=
  match ev with
  | .system e =>
    match ctx.channel with
    | some c =>
      if c.closed then (ctx, .fatal "send on app channel")
      else (ctx, .ok [.systemEvent e])
    | none => (ctx, .ok [])
  | .gossip bytes =>
    match decodeBytes bytes with
    | none => (ctx, .fatal "decode message bytes")
    | some (t, i) =>
      match ctx.channel with
      | some c =>
        if c.closed then (ctx, .fatal "send on app channel")
        else (ctx, .ok [.samplePlayed t i])
      | none => (ctx, .ok [])
  | .syncMsg => (ctx, .fatal "not yet implemented")
  | .localApp t i =>
    match ctx.channel with
    | some c =>
      if c.closed then (ctx, .fatal "send on app channel")
      else (ctx, .ok [.samplePlayed t i])
    | none => (ctx, .ok [])

/-- An event that the loop can process without hitting a fatal site even with
no consumer registered: anything except an undecodable gossip payload or a
sync message. -/
def discardable : SourceEvent → Bool
  | .system _ => true
  | .gossip bytes => (decodeBytes bytes).isSome
  | .syncMsg => false
  | .localApp _ _ => true

/-- Interleaved history of multiplexer inputs and `init` calls from the
command surface. -/
inductive MuxAction where
  | src (e : SourceEvent)
  | register (c : Channel)
deriving DecidableEq

/-- Runs the multiplexer over a history of actions: `register` routes through
`init`, `src` through `muxStep`; deliveries accumulate in order and a fatal
step stops the run with its message. -/
def runMux (ctx : AppContext) : List MuxAction → AppContext × List ChannelEvent × Option String
  | [] => (ctx, [], none)
  | .register c :: rest => runMux (init ctx c).1 rest
  | .src e :: rest =>
    match muxStep ctx e with
    | (ctx', .ok evs) =>
      let r := runMux ctx' rest
      (r.1, evs ++ r.2.1, r.2.2)
    | (ctx', .fatal m) => (ctx', [], some m)

/-- Field values appearing in the serialized form of a consumer event. -/
inductive JVal where
  | str (s : String)
  | num (n : Nat)
  | sys (e : SystemEvent)
deriving DecidableEq

/-- The `Serialize` impl for `ChannelEvent` in `lib.rs`, as the field list it
emits: `SamplePlayed` serializes the fields `type`, `timestamp`, `index` and
nothing else (in particular no `public_key` field). -/
def serializeChannelEvent : ChannelEvent → List (String × JVal)
  | .samplePlayed t i =>
    [("type", .str "SamplePlayed"), ("timestamp", .num t), ("index", .num i)]
  | .systemEvent e =>
    [("type", .str "SystemEvent"), ("data", .sys e)]

lemma muxStep_none_discard (ctx : AppContext) (e : SourceEvent)
    (hch : ctx.channel = none) (hd : discardable e = true) :
    muxStep ctx e = (ctx, .ok []) := by
  cases e with
  | system ev => simp [muxStep, hch]
  | gossip bytes =>
    simp only [discardable, Option.isSome_iff_exists] at hd
    obtain ⟨p, hp⟩ := hd
    simp [muxStep, hp, hch]
  | syncMsg => simp [discardable] at hd
  | localApp t i => simp [muxStep, hch]

/-- Wire messages of the dummy sync protocol (`enum SyncMessage` in
`sync.rs`): a topic query or `Done`. -/
inductive SyncMessage where
  | topicQuery (t : AppTopic)
  | done
deriving DecidableEq

/-- Signals sent to the overlay layer on `app_tx`
(`p2panda_sync::FromSync`): handshake success for a topic. -/
inductive FromSync where
  | handshakeSuccess (t : AppTopic)
deriving DecidableEq

/-- How a sync role execution ends: `Ok(())`, `Err(SyncError)` carrying the
error text, or an unwinding `panic!()`. -/
inductive SyncOutcome where
  | ok
  | err (e : String)
  | panicked
deriving DecidableEq

/-- Observable trace of one sync role execution: messages written to the CBOR
sink, signals sent on `app_tx`, whether the simulated-work `sleep` ran,
whether the final flushes were reached, how many incoming messages were read,
and the outcome. -/
structure SyncRun where
  sent : List SyncMessage
  signals : List FromSync
  slept : Bool
  flushed : Bool
  consumed : Nat
  outcome : SyncOutcome
deriving DecidableEq

/-- Protocol name reported by `DummyProtocol::name`. -/
def protocolName : String := "dummy_protocol_v1"

/-- Items produced by the incoming CBOR stream: a decoded message or a
stream/framing error (which `result?` propagates as a `SyncError`). -/
abbrev StreamItem := Except String SyncMessage

/-- The read loop of `DummyProtocol::initiate`, run after `Done` was sent and
handshake success signaled: each iteration either propagates a stream error,
panics on a `TopicQuery` (`SyncMessage::TopicQuery(_) => panic!()`), or breaks
on `Done`; an exhausted stream ends the loop normally. Returns the number of
messages read and the outcome. -/
def initiateLoop : List StreamItem → Nat × SyncOutcome
  | [] => (0, .ok)
  | .error e :: _ => (1, .err e)
  | .ok (.topicQuery _) :: _ => (1, .panicked)
  | .ok .done :: _ => (1, .ok)

/-- `DummyProtocol::initiate` over the list of messages the peer's side of the
stream yields: sends `TopicQuery(topic)`, sleeps (simulated sync work), sends
`Done`, signals `HandshakeSuccess(topic)`, then runs the read loop; the final
flushes are reached only when the loop breaks or exhausts the stream. -/
def initiate (topic : AppTopic) (incoming : List StreamItem) : SyncRun :=
  let r := initiateLoop incoming
  { sent := [.topicQuery topic, .done]
    signals := [.handshakeSuccess topic]
    slept := true
    flushed := match r.2 with | .ok => true | _ => false
    consumed := r.1
    outcome := r.2 }

/-- The read loop of `DummyProtocol::accept`: a stream error propagates; a
`TopicQuery(t)` sends `HandshakeSuccess(t)` on `app_tx` and continues; `Done`
breaks; an exhausted stream ends the loop normally. Returns the signals sent,
the number of messages read, and the outcome. -/
def acceptLoop : List StreamItem → List FromSync × Nat × SyncOutcome
  | [] => ([], 0, .ok)
  | .error e :: _ => ([], 1, .err e)
  | .ok (.topicQuery t) :: rest =>
    let r := acceptLoop rest
    (.handshakeSuccess t :: r.1, r.2.1 + 1, r.2.2)
  | .ok .done :: _ => ([], 1, .ok)

/-- `DummyProtocol::accept` over the incoming message list: runs the read
loop, then (when it ended without error) sends its own `Done` and flushes. -/
def accept (incoming : List StreamItem) : SyncRun :=
  let r := acceptLoop incoming
  { sent := match r.2.2 with | .ok => [.done] | _ => []
    signals := r.1
    slept := false
    flushed := match r.2.2 with | .ok => true | _ => false
    consumed := r.2.1
    outcome := r.2.2 }

lemma acceptLoop_replicate (n : Nat) (t : AppTopic) :
    acceptLoop
        (List.replicate n (Except.ok (SyncMessage.topicQuery t))
          ++ [Except.ok SyncMessage.done])
      = (List.replicate n (FromSync.handshakeSuccess t), n + 1, SyncOutcome.ok) := by
  induction n with
  | zero => rfl
  | succ n ih =>
    simp only [List.replicate_succ, List.cons_append, acceptLoop, List.append_eq, ih]

/-- Claim C2 counterexample: at the concrete input stream `TopicQuery`,
`TopicQuery`, `Done` the acceptor does not return a protocol error after the
second `TopicQuery` — it finishes with `Ok(())` having signaled handshake
success twice; and the initiator, fed a `TopicQuery` after its own handshake
success signal, panics rather than returning a `SyncError`. -/
theorem acceptor_second_topic_query_cex :
    (accept [Except.ok (SyncMessage.topicQuery app_topic),
             Except.ok (SyncMessage.topicQuery app_topic),
             Except.ok SyncMessage.done]).outcome = SyncOutcome.ok ∧
    (accept [Except.ok (SyncMessage.topicQuery app_topic),
             Except.ok (SyncMessage.topicQuery app_topic),
             Except.ok SyncMessage.done]).signals
      = [FromSync.handshakeSuccess app_topic, FromSync.handshakeSuccess app_topic] ∧
    (initiate app_topic [Except.ok (SyncMessage.topicQuery app_topic)]).outcome
      = SyncOutcome.panicked :=
  ⟨rfl, rfl, rfl⟩

/-- Claim C2 amended: a `TopicQuery` received after handshake success has been
signaled does not fail the session with a `SyncError` in either role — the
acceptor treats it as another query, signals handshake success again and
completes successfully, while the initiator aborts by panicking. -/
theorem topic_query_after_handshake_behavior :
    (∀ (t : AppTopic) (rest : List StreamItem),
      (accept (Except.ok (SyncMessage.topicQuery t)
          :: Except.ok (SyncMessage.topicQuery t)
          :: Except.ok SyncMessage.done :: rest)).outcome = SyncOutcome.ok ∧
      (accept (Except.ok (SyncMessage.topicQuery t)
          :: Except.ok (SyncMessage.topicQuery t)
          :: Except.ok SyncMessage.done :: rest)).signals
        = [FromSync.handshakeSuccess t, FromSync.handshakeSuccess t]) ∧
    (∀ (t t' : AppTopic) (rest : List StreamItem),
      (initiate t (Except.ok (SyncMessage.topicQuery t') :: rest)).outcome
        = SyncOutcome.panicked) :=
  ⟨fun _ _ => ⟨rfl, rfl⟩, fun _ _ _ => rfl⟩

/-- Claim C6: the initiator performs exactly the claimed sequence — it sends
`TopicQuery(topic)` then `Done`, performs the placeholder-delay work, signals
handshake success exactly once, reads incoming messages only until the peer's
`Done`, and returns successfully with flushing reached; moreover, running the
acceptor on the initiator's own output (the loopback pairing) also terminates
successfully after signaling handshake success once. -/
theorem initiator_sequence (t : AppTopic) (rest : List StreamItem) :
    initiate t (Except.ok SyncMessage.done :: rest)
      = { sent := [SyncMessage.topicQuery t, SyncMessage.done]
          signals := [FromSync.handshakeSuccess t]
          slept := true
          flushed := true
          consumed := 1
          outcome := SyncOutcome.ok } ∧
    accept ((initiate t []).sent.map Except.ok)
      = { sent := [SyncMessage.done]
          signals := [FromSync.handshakeSuccess t]
          slept := false
          flushed := true
          consumed := 2
          outcome := SyncOutcome.ok } :=
  ⟨rfl, rfl⟩

/-- Claim C9: the acceptor signals handshake success once per `TopicQuery` it
reads before `Done` — for an incoming stream of `n` topic queries followed by
`Done` it emits exactly `n` `HandshakeSuccess` signals, consumes exactly those
`n + 1` messages, then sends its own `Done` and returns successfully. -/
theorem acceptor_signals_per_topic_query (n : Nat) (t : AppTopic) :
    accept (List.replicate n (Except.ok (SyncMessage.topicQuery t))
        ++ [Except.ok SyncMessage.done])
      = { sent := [SyncMessage.done]
          signals := List.replicate n (FromSync.handshakeSuccess t)
          slept := false
          flushed := true
          consumed := n + 1
          outcome := SyncOutcome.ok } := by
  simp [accept, acceptLoop_replicate]

/-- Claim C3 counterexample: with no consumer registered, the loop does not
block for a first registration — at the concrete input it consumes a
locally-published event and silently discards it (no delivery, no error,
context untouched). -/
theorem mux_discards_without_consumer_cex :
    muxStep ⟨none, [], []⟩ (SourceEvent.localApp 1000 7)
      = (⟨none, [], []⟩, StepOutcome.ok []) :=
  rfl

/-- Claim C3 amended: the merge loop does not wait for a first consumer
registration; any event that does not hit a fatal decode/todo site is
consumed while no consumer channel is registered and silently discarded,
leaving the context unchanged. -/
theorem mux_no_first_consumer_wait (ctx : AppContext) (e : SourceEvent)
    (hch : ctx.channel = none) (hd : discardable e = true) :
    muxStep ctx e = (ctx, StepOutcome.ok []) :=
  muxStep_none_discard ctx e hch hd

/-- Witness for the amended C3 at a concrete unregistered context and a
system event. -/
theorem mux_no_first_consumer_wait_witness :
    muxStep ⟨none, [], []⟩ (SourceEvent.system (SystemEvent.peerDiscovered 5))
      = (⟨none, [], []⟩, StepOutcome.ok []) :=
  mux_no_first_consumer_wait ⟨none, [], []⟩
    (SourceEvent.system (SystemEvent.peerDiscovered 5)) rfl rfl

/-- Claim C4 counterexample: publishing `(timestamp = 1000, sample_index = 7)`
with a registered consumer delivers a `SamplePlayed` event whose serialized
fields are `type`, `timestamp`, `index` only — it is not an
`ApplicationMessage` and carries no `public_key` field. -/
theorem local_publish_no_public_key_cex :
    muxStep ⟨some ⟨false⟩, [], []⟩ (SourceEvent.localApp 1000 7)
      = (⟨some ⟨false⟩, [], []⟩, StepOutcome.ok [ChannelEvent.samplePlayed 1000 7]) ∧
    (serializeChannelEvent (ChannelEvent.samplePlayed 1000 7)).map Prod.fst
      = ["type", "timestamp", "index"] ∧
    "public_key" ∉ (serializeChannelEvent (ChannelEvent.samplePlayed 1000 7)).map Prod.fst := by
  refine ⟨rfl, rfl, ?_⟩
  decide

/-- Claim C4 amended: every locally-published event delivered to the consumer
is a `SamplePlayed` event carrying exactly the published timestamp and
sample index, delivered exactly once; it carries no public-key attribution. -/
theorem local_publish_delivers_sample_played (ctx : AppContext) (c : Channel)
    (t i : Nat) (hch : ctx.channel = some c) (hopen : c.closed = false) :
    muxStep ctx (SourceEvent.localApp t i)
      = (ctx, StepOutcome.ok [ChannelEvent.samplePlayed t i]) ∧
    "public_key" ∉ (serializeChannelEvent (ChannelEvent.samplePlayed t i)).map Prod.fst := by
  constructor
  · simp [muxStep, hch, hopen]
  · simp [serializeChannelEvent]

/-- Witness for the amended C4 at a concrete open consumer channel and the
spec scenario values. -/
theorem local_publish_delivers_sample_played_witness :
    muxStep ⟨some ⟨false⟩, [], []⟩ (SourceEvent.localApp 1000 8)
      = (⟨some ⟨false⟩, [], []⟩, StepOutcome.ok [ChannelEvent.samplePlayed 1000 8]) ∧
    "public_key" ∉ (serializeChannelEvent (ChannelEvent.samplePlayed 1000 8)).map Prod.fst :=
  local_publish_delivers_sample_played ⟨some ⟨false⟩, [], []⟩ ⟨false⟩ 1000 8 rfl rfl

/-- Claim C5: publishing `(timestamp, index)` performs both the local echo
(the pair is appended to the local-origin queue) and the gossip broadcast of
the codec-encoded payload, the command succeeds, the multiplexer delivers the
echoed pair to an open consumer as `SamplePlayed`, and the wire payload
decodes to exactly the same pair as delivered locally. -/
theorem publish_echo_and_wire_consistent (ctx ctx2 : AppContext) (c : Channel)
    (t i : Nat) (hch : ctx2.channel = some c) (hopen : c.closed = false)
    (ht : t < 2 ^ 64) (hi : i < 2 ^ 16) :
    (broadcast ctx t i).1.appQueue = ctx.appQueue ++ [(t, i)] ∧
    (broadcast ctx t i).1.wire = ctx.wire ++ [encodeMessage t i] ∧
    (broadcast ctx t i).2 = Except.ok () ∧
    muxStep ctx2 (SourceEvent.localApp t i)
      = (ctx2, StepOutcome.ok [ChannelEvent.samplePlayed t i]) ∧
    decodeBytes (encodeMessage t i) = some (t, i) := by
  refine ⟨rfl, rfl, rfl, ?_, decodeBytes_encodeMessage t i ht hi⟩
  simp [muxStep, hch, hopen]

/-- Witness for C5 at concrete contexts and the values `(1000, 7)`. -/
theorem publish_echo_and_wire_consistent_witness :
    (broadcast ⟨none, [], []⟩ 1000 7).1.appQueue = [] ++ [(1000, 7)] ∧
    (broadcast ⟨none, [], []⟩ 1000 7).1.wire = [] ++ [encodeMessage 1000 7] ∧
    (broadcast ⟨none, [], []⟩ 1000 7).2 = Except.ok () ∧
    muxStep ⟨some ⟨false⟩, [], []⟩ (SourceEvent.localApp 1000 7)
      = (⟨some ⟨false⟩, [], []⟩, StepOutcome.ok [ChannelEvent.samplePlayed 1000 7]) ∧
    decodeBytes (encodeMessage 1000 7) = some (1000, 7) :=
  publish_echo_and_wire_consistent ⟨none, [], []⟩ ⟨some ⟨false⟩, [], []⟩ ⟨false⟩
    1000 7 rfl rfl (by decide) (by decide)

/-- Claim C7: an undecodable gossip payload makes the multiplexer step abort
with the decode-fatal message, whatever the context (the channel is not even
consulted); a forward to a closed consumer likewise aborts; and concrete
truncated or malformed byte strings indeed fail to decode. -/
theorem decode_failure_aborts :
    (∀ (ctx : AppContext) (bs : List Nat), decodeBytes bs = none →
      muxStep ctx (SourceEvent.gossip bs) = (ctx, StepOutcome.fatal "decode message bytes")) ∧
    (∀ (ctx : AppContext) (c : Channel) (t i : Nat),
      ctx.channel = some c → c.closed = true →
      muxStep ctx (SourceEvent.localApp t i) = (ctx, StepOutcome.fatal "send on app channel")) ∧
    decodeBytes (List.take 7 (encodeMessage 1000 7)) = none ∧
    decodeBytes [110, 111, 116, 32, 106, 115, 111, 110] = none := by
  refine ⟨?_, ?_, ?_, rfl⟩
  · intro ctx bs h
    simp [muxStep, h]
  · intro ctx c t i hch hcl
    simp [muxStep, hch, hcl]
  · rfl

/-- Witness for C7 at a concrete context and the malformed single-byte
payload `[`. -/
theorem decode_failure_aborts_witness :
    muxStep ⟨none, [], []⟩ (SourceEvent.gossip [91])
      = (⟨none, [], []⟩, StepOutcome.fatal "decode message bytes") ∧
    muxStep ⟨some ⟨true⟩, [], []⟩ (SourceEvent.localApp 1 2)
      = (⟨some ⟨true⟩, [], []⟩, StepOutcome.fatal "send on app channel") :=
  ⟨decode_failure_aborts.1 ⟨none, [], []⟩ [91] rfl,
   decode_failure_aborts.2.1 ⟨some ⟨true⟩, [], []⟩ ⟨true⟩ 1 2 rfl rfl⟩

/-- Claim C8: registering a consumer replaces the active channel with the
newly supplied one and always returns success, for every input, leaving the
outbound sinks untouched. -/
theorem init_replaces_consumer (ctx : AppContext) (c : Channel) :
    init ctx c = ({ ctx with channel := some c }, Except.ok ()) ∧
    (init ctx c).1.channel = some c ∧
    (init ctx c).1.appQueue = ctx.appQueue ∧
    (init ctx c).1.wire = ctx.wire :=
  ⟨rfl, rfl, rfl, rfl⟩

/-- Claim C10 counterexample: a gossip event whose bytes do not decode is not
discarded without error while no consumer is registered — it aborts the loop
at the decode `expect`, refuting the claim for that event. -/
theorem mux_unregistered_fatal_gossip_cex :
    muxStep ⟨none, [], []⟩ (SourceEvent.gossip [91, 93])
      = (⟨none, [], []⟩, StepOutcome.fatal "decode message bytes") :=
  rfl

/-- Claim C10 amended: while no consumer channel is registered, every event
that does not hit a fatal decode/todo site (system events, decodable gossip
payloads, local-origin events) is consumed and discarded without error and
without touching the context; and a run containing such discarded events
followed by a consumer registration produces exactly the deliveries of the
run without them — a discarded event is never redelivered. -/
theorem mux_unregistered_discard_run (ctx : AppContext) (es : List SourceEvent)
    (c : Channel) (rest : List MuxAction)
    (hch : ctx.channel = none) (hd : ∀ e ∈ es, discardable e = true) :
    (∀ e ∈ es, muxStep ctx e = (ctx, StepOutcome.ok [])) ∧
    runMux ctx (es.map MuxAction.src ++ MuxAction.register c :: rest)
      = runMux ctx (MuxAction.register c :: rest) := by
  constructor
  · intro e he
    exact muxStep_none_discard ctx e hch (hd e he)
  · induction es with
    | nil => simp
    | cons e es ih =>
      have h1 : muxStep ctx e = (ctx, StepOutcome.ok []) :=
        muxStep_none_discard ctx e hch (hd e (List.mem_cons_self e es))
      have ih' := ih (fun x hx => hd x (List.mem_cons_of_mem e hx))
      simp only [List.map_cons, List.cons_append, runMux, h1, List.append_eq,
        List.nil_append, ih', Prod.mk.eta]

/-- Witness for the amended C10: two discardable events arriving before a
registration leave the run's outcome identical to the run without them. -/
theorem mux_unregistered_discard_run_witness :
    (∀ e ∈ [SourceEvent.localApp 3 4, SourceEvent.system (SystemEvent.peerDiscovered 9)],
      muxStep ⟨none, [], []⟩ e = (⟨none, [], []⟩, StepOutcome.ok [])) ∧
    runMux ⟨none, [], []⟩
        ([SourceEvent.localApp 3 4,
          SourceEvent.system (SystemEvent.peerDiscovered 9)].map MuxAction.src
          ++ MuxAction.register ⟨false⟩ :: [MuxAction.src (SourceEvent.localApp 8 9)])
      = runMux ⟨none, [], []⟩
          (MuxAction.register ⟨false⟩ :: [MuxAction.src (SourceEvent.localApp 8 9)]) :=
  mux_unregistered_discard_run ⟨none, [], []⟩
    [SourceEvent.localApp 3 4, SourceEvent.system (SystemEvent.peerDiscovered 9)]
    ⟨false⟩ [MuxAction.src (SourceEvent.localApp 8 9)] rfl (by decide)
